import Mathlib

/-!
# btcli: the command line bootstrap (`api/interfaces/cli.go`)

A shallow embedding of `CLI.Run` and its helpers `loadConfig`, `loadHistoryFile`
and `preparePrompt`.

The collaborators that `cli.go` only calls (configuration loading, the user
database, the file system, the Bigtable client constructor and the go-prompt
loop) are gathered in an environment record `Env`; every result they can give
is a possible value of the corresponding field.  A run produces a trace of the
calls and stream writes that `Run` itself performs, in program order, together
with the way the run ended.
-/

namespace Btcli

/-! ## Exit codes -/

/-- Value of `iota` inside the ConstSpec at position `index` (counted from 0) of
a Go const block. -/
def iota (index : Nat) : Int := index

/-- ConstSpec 0 of the block: `ExitCodeOK = 0`. -/
def ExitCodeOK : Int := 0

/-- ConstSpec 1 of the block: `ExitCodeError = 10 + iota`. -/
def ExitCodeError : Int := 10 + iota 1

/-- ConstSpec 2 of the block: the expression `10 + iota` is repeated implicitly. -/
def ExitCodeParseError : Int := 10 + iota 2

/-- ConstSpec 3 of the block: the expression `10 + iota` is repeated implicitly. -/
def ExitCodeInvalidArgsError : Int := 10 + iota 3

/-! ## Data -/

/-- Go byte strings: file contents and the lines read from them. -/
abbrev Bytes := List UInt8

/-- The fields of `config.Config` that `cli.go` reads. -/
structure Config where
  Project : String
  Instance : String
  deriving DecidableEq, Repr

/-- The field of `user.User` that `cli.go` reads. -/
structure User where
  HomeDir : String
  deriving DecidableEq, Repr

/-- An open `*os.File`: how it was opened and the bytes it holds. -/
structure File where
  name : String
  flag : Nat
  perm : Nat
  content : Bytes
  deriving DecidableEq, Repr

/-- The repository client returned by `bigtable.NewBigtableRepository`. -/
structure Repository where
  handle : Nat
  deriving DecidableEq, Repr

/-- The fields of `Executor` set by `preparePrompt`; `history` is the writer
argument, `none` standing for the nil `*os.File` left by a failed open. -/
structure Executor where
  history : Option File
  repository : Repository
  deriving DecidableEq, Repr

/-- The field of `Completer` set by `preparePrompt`. -/
structure Completer where
  repository : Repository
  deriving DecidableEq, Repr

/-- The prompt built by `prompt.New`: its executor, its completer and the list
given to `prompt.OptionHistory`. -/
structure Prompt where
  executor : Executor
  completer : Completer
  histories : List Bytes
  deriving DecidableEq, Repr

/-- The ways `p.Run()` can end: it returns, the process is ended from inside
the loop by `os.Exit`, or the loop never ends. -/
inductive LoopEnd where
  | returned
  | exited (code : Int)
  | blocked
  deriving DecidableEq, Repr

/-- The CLI object; its two streams appear as the write events of the trace. -/
structure CLI where
  Version : String
  Revision : String
  deriving DecidableEq, Repr

/-- The collaborators of `cli.go`. Go results `(v, err)` are `Except` values
whose error is the text of `err.Error()`. -/
structure Env where
  /-- the result of `conf.Load()` -/
  confLoad : Except String Config
  /-- the result of `user.Current()` -/
  userCurrent : Except String User
  /-- the result of `os.OpenFile name flag perm`: the bytes of the opened file -/
  openFile : String → Nat → Nat → Except String Bytes
  /-- the result of `bigtable.NewBigtableRepository project instance` -/
  newBigtableRepository : String → String → Except String Repository
  /-- how `p.Run()` ends for the prompt `p` -/
  promptRun : Prompt → LoopEnd

/-- What `Run` does, in program order. -/
inductive Event where
  | confLoad
  | userCurrent
  | openFile (name : String) (flag perm : Nat)
  | scanFile (f : File)
  | closeFile (f : File)
  | newBigtableRepository (project inst : String)
  | errWrite (s : String)
  | outWrite (s : String)
  | promptRun (p : Prompt)
  deriving DecidableEq, Repr

/-- How a call of `Run` ends: it returns a status, the process is ended inside
the prompt loop, or the prompt loop never ends. -/
inductive Outcome where
  | returned (status : Int)
  | exited (code : Int)
  | blocked
  deriving DecidableEq, Repr

/-- A run of `Run`: its trace and its outcome. -/
structure Exec where
  trace : List Event
  outcome : Outcome
  deriving DecidableEq, Repr

/-! ## Open flags (package `os`, values of `syscall` on linux) -/

def O_RDONLY : Nat := 0x0
def O_WRONLY : Nat := 0x1
def O_RDWR : Nat := 0x2
def O_CREATE : Nat := 0x40
def O_EXCL : Nat := 0x80
def O_TRUNC : Nat := 0x200
def O_APPEND : Nat := 0x400

/-! ## `bufio.Scanner` with the default split function `bufio.ScanLines` -/

/-- `bufio.MaxScanTokenSize`. -/
def maxScanTokenSize : Nat := 64 * 1024

/-- `bytes.IndexByte`. -/
def indexByte : Bytes → UInt8 → Option Nat
  | [], _ => none
  | b :: rest, c => if b = c then some 0 else (indexByte rest c).map (· + 1)

/-- `bufio.dropCR`: drops a terminal carriage return. -/
def dropCR (data : Bytes) : Bytes :=
  if data.getLast? = some 13 then data.dropLast else data

/-- `bufio.ScanLines`: the advance and the token, `none` for a nil token. -/
def ScanLines (data : Bytes) (atEOF : Bool) : Nat × Option Bytes :=
  if atEOF && data.isEmpty then (0, none)
  else
    match indexByte data 10 with
    | some i => (i + 1, some (dropCR (data.take i)))
    | none => if atEOF then (data.length, some (dropCR data)) else (0, none)

/-- One call of `Scanner.Scan` on the unread rest of the file. The buffer grows
up to `maxScanTokenSize` bytes, so the split function sees at most that many
unread bytes, and sees end of file only when all of them fit with room to spare;
a full buffer without a token ends the scan (`ErrTooLong`). The result is the
token and what is left unread, `none` when `Scan` returns false. -/
def Scan (unread : Bytes) : Option (Bytes × Bytes) :=
  match ScanLines (unread.take maxScanTokenSize) (decide (unread.length < maxScanTokenSize)) with
  | (advance, some token) => some (token, unread.drop advance)
  | (_, none) => none

/-- The loop `for s.Scan() { histories = append(histories, s.Text()) }`; every
successful `Scan` consumes at least one byte, `fuel` bounds the iterations. -/
def scanLoop : Nat → Bytes → List Bytes
  | 0, _ => []
  | fuel + 1, unread =>
    match Scan unread with
    | none => []
    | some (token, rest) => token :: scanLoop fuel rest

/-- Lines 52-55 of `Run`: the histories scanned from the opened file. -/
def scanHistories (f : File) : List Bytes :=
  scanLoop (f.content.length + 1) f.content

/-- The history file the specification describes for a list of raw input
lines: one record per line, each terminated by a newline, in append order. -/
def fileOfLines : List Bytes → Bytes
  | [] => []
  | l :: ls => l ++ 10 :: fileOfLines ls

/-! ## The functions of `cli.go` -/

/-- `CLI.loadConfig`: `args` is not read; assigning `flag.Usage` writes nothing. -/
def loadConfig (_c : CLI) (env : Env) (_args : List String) :
    List Event × Except String Config :=
  match env.confLoad with
  | .error err => ([Event.confLoad], .error err)
  | .ok conf => ([Event.confLoad], .ok conf)

/-- `loadHistoryFile`. -/
def loadHistoryFile (env : Env) (_conf : Config) : List Event × Except String File :=
  match env.userCurrent with
  | .error err => ([Event.userCurrent], .error err)
  | .ok u =>
    let name := u.HomeDir ++ "/.btcli_history"
    let flag := O_RDWR ||| O_CREATE ||| O_APPEND
    match env.openFile name flag 0o666 with
    | .error err => ([Event.userCurrent, Event.openFile name flag 0o666], .error err)
    | .ok content =>
      ([Event.userCurrent, Event.openFile name flag 0o666], .ok ⟨name, flag, 0o666, content⟩)

/-- `CLI.preparePrompt`; `errors.Wrapf(err, format, err)` has the text
`format(err) ++ ": " ++ err`. -/
def preparePrompt (_c : CLI) (env : Env) (conf : Config) (writer : Option File)
    (histories : List Bytes) : List Event × Except String Prompt :=
  match env.newBigtableRepository conf.Project conf.Instance with
  | .error err =>
    ([Event.newBigtableRepository conf.Project conf.Instance],
      .error ("failed to initialized bigtable repository:" ++ err ++ ": " ++ err))
  | .ok repository =>
    ([Event.newBigtableRepository conf.Project conf.Instance],
      .ok ⟨⟨writer, repository⟩, ⟨repository⟩, histories⟩)

/-- `CLI.Run`. The deferred `f.Close()` runs when `Run` returns, and does not
run when the process is ended inside the prompt loop. -/
def CLI.Run (c : CLI) (env : Env) (args : List String) : Exec :=
  match loadConfig c env args with
  | (t0, .error err) =>
    ⟨t0 ++ [Event.errWrite ("args parse error: " ++ err ++ "\n")],
      .returned ExitCodeParseError⟩
  | (t0, .ok conf) =>
    let (t1, r) := loadHistoryFile env conf
    let (t2, f, histories, deferred) : List Event × Option File × List Bytes × List Event :=
      match r with
      | .error err =>
        ([Event.errWrite ("failed to a history file open: " ++ err ++ "\n")], none, [], [])
      | .ok f => ([Event.scanFile f], some f, scanHistories f, [Event.closeFile f])
    match preparePrompt c env conf f histories with
    | (t3, .error err) =>
      ⟨t0 ++ t1 ++ t2 ++ t3 ++ [Event.errWrite ("failed to initialized prompt: " ++ err ++ "\n")]
        ++ deferred, .returned ExitCodeError⟩
    | (t3, .ok p) =>
      let t4 := [Event.outWrite ("btcli Version: " ++ c.Version ++ "(" ++ c.Revision ++ ")\n"),
        Event.outWrite "Please use `exit` or `Ctrl-D` to exit this program.\n",
        Event.promptRun p]
      match env.promptRun p with
      | .returned => ⟨t0 ++ t1 ++ t2 ++ t3 ++ t4 ++ deferred, .returned ExitCodeOK⟩
      | .exited code => ⟨t0 ++ t1 ++ t2 ++ t3 ++ t4, .exited code⟩
      | .blocked => ⟨t0 ++ t1 ++ t2 ++ t3 ++ t4, .blocked⟩

/-! ## Classifying the events of a trace -/

def Event.isOpenFile : Event → Bool
  | .openFile _ _ _ => true
  | _ => false

def Event.isCloseFile : Event → Bool
  | .closeFile _ => true
  | _ => false

def Event.isNewRepository : Event → Bool
  | .newBigtableRepository _ _ => true
  | _ => false

def Event.isErrWrite : Event → Bool
  | .errWrite _ => true
  | _ => false

def Event.isOutWrite : Event → Bool
  | .outWrite _ => true
  | _ => false

def Event.isPromptRun : Event → Bool
  | .promptRun _ => true
  | _ => false

/-- The history lists handed to the prompts that a run starts. -/
def Exec.histories (r : Exec) : List (List Bytes) :=
  r.trace.filterMap fun e =>
    match e with
    | .promptRun p => some p.histories
    | _ => none

/-! ## Concrete environments used as instances -/

def cli0 : CLI := ⟨"1.0.0", "abcdef"⟩

def conf0 : Config := ⟨"my-project", "my-instance"⟩

/-- Everything succeeds; the history file holds `ls` and `exit`, and the prompt
loop returns. -/
def envOK : Env where
  confLoad := .ok conf0
  userCurrent := .ok ⟨"/home/alice"⟩
  openFile := fun _ _ _ => .ok [108, 115, 10, 101, 120, 105, 116, 10]
  newBigtableRepository := fun _ _ => .ok ⟨1⟩
  promptRun := fun _ => .returned

/-- The configuration cannot be loaded. -/
def envConfFail : Env where
  confLoad := .error "required key PROJECT missing value"
  userCurrent := .ok ⟨"/home/alice"⟩
  openFile := fun _ _ _ => .ok []
  newBigtableRepository := fun _ _ => .ok ⟨1⟩
  promptRun := fun _ => .returned

/-- The repository client cannot be constructed. -/
def envRepoFail : Env where
  confLoad := .ok conf0
  userCurrent := .ok ⟨"/home/alice"⟩
  openFile := fun _ _ _ => .ok [108, 115, 10]
  newBigtableRepository := fun _ _ => .error "dial failed"
  promptRun := fun _ => .returned

/-- The history file cannot be opened. -/
def envHistFail : Env where
  confLoad := .ok conf0
  userCurrent := .ok ⟨"/home/alice"⟩
  openFile := fun _ _ _ => .error "permission denied"
  newBigtableRepository := fun _ _ => .ok ⟨1⟩
  promptRun := fun _ => .returned

/-- The history file holds the single record `a\r`. -/
def envCR : Env where
  confLoad := .ok conf0
  userCurrent := .ok ⟨"/home/alice"⟩
  openFile := fun _ _ _ => .ok (fileOfLines [[97, 13]])
  newBigtableRepository := fun _ _ => .ok ⟨1⟩
  promptRun := fun _ => .returned

/-- The history file holds the records `ls` and `read users`. -/
def envTwoLines : Env where
  confLoad := .ok conf0
  userCurrent := .ok ⟨"/home/alice"⟩
  openFile := fun _ _ _ =>
    .ok (fileOfLines [[108, 115], [114, 101, 97, 100, 32, 117, 115, 101, 114, 115]])
  newBigtableRepository := fun _ _ => .ok ⟨1⟩
  promptRun := fun _ => .returned

/-! ## Exit codes -/

/-- C6: `ExitCodeOK` is 0, the three error statuses are non-zero, and the four
constants are pairwise different. -/
theorem C6_exit_codes_distinct :
    ExitCodeOK = 0 ∧
    ExitCodeError ≠ 0 ∧ ExitCodeParseError ≠ 0 ∧ ExitCodeInvalidArgsError ≠ 0 ∧
    ExitCodeOK ≠ ExitCodeError ∧ ExitCodeOK ≠ ExitCodeParseError ∧
    ExitCodeOK ≠ ExitCodeInvalidArgsError ∧
    ExitCodeError ≠ ExitCodeParseError ∧ ExitCodeError ≠ ExitCodeInvalidArgsError ∧
    ExitCodeParseError ≠ ExitCodeInvalidArgsError := by
  decide

/-- C7 (as the code has it): `ExitCodeError` is the second ConstSpec of its block,
where `iota` is 1, so the specific error codes are 11, 12 and 13 and none of them
is 10; a run whose repository client cannot be constructed returns 11. -/
theorem C7_exit_codes_begin_at_11 :
    ExitCodeError = 11 ∧ ExitCodeParseError = 12 ∧ ExitCodeInvalidArgsError = 13 ∧
    ExitCodeError ≠ 10 ∧
    (CLI.Run cli0 envRepoFail []).outcome = Outcome.returned 11 := by
  decide

/-! ## Equations for `Run`, one per path -/

theorem Run_confLoad_error (c : CLI) (env : Env) (args : List String) (err : String)
    (h : env.confLoad = .error err) :
    CLI.Run c env args =
      ⟨[Event.confLoad, Event.errWrite ("args parse error: " ++ err ++ "\n")],
        .returned ExitCodeParseError⟩ := by
  simp [CLI.Run, loadConfig, h]

theorem Run_prepare_error (c : CLI) (env : Env) (args : List String) (conf : Config)
    (err : String) (h : env.confLoad = .ok conf)
    (hr : env.newBigtableRepository conf.Project conf.Instance = .error err) :
    CLI.Run c env args =
      ⟨[Event.confLoad] ++ (loadHistoryFile env conf).1 ++
        (match (loadHistoryFile env conf).2 with
          | .error e => [Event.errWrite ("failed to a history file open: " ++ e ++ "\n")]
          | .ok f => [Event.scanFile f]) ++
        [Event.newBigtableRepository conf.Project conf.Instance,
          Event.errWrite ("failed to initialized prompt: " ++
            ("failed to initialized bigtable repository:" ++ err ++ ": " ++ err) ++ "\n")] ++
        (match (loadHistoryFile env conf).2 with
          | .error _ => []
          | .ok f => [Event.closeFile f]),
        .returned ExitCodeError⟩ := by
  rcases hl : loadHistoryFile env conf with ⟨t1, r⟩
  cases r <;> simp [CLI.Run, loadConfig, h, hl, preparePrompt, hr]

theorem Run_history_error (c : CLI) (env : Env) (args : List String) (conf : Config)
    (t1 : List Event) (e : String) (repo : Repository) (h : env.confLoad = .ok conf)
    (hl : loadHistoryFile env conf = (t1, .error e))
    (hr : env.newBigtableRepository conf.Project conf.Instance = .ok repo) :
    CLI.Run c env args =
      ⟨[Event.confLoad] ++ t1 ++
        [Event.errWrite ("failed to a history file open: " ++ e ++ "\n"),
          Event.newBigtableRepository conf.Project conf.Instance,
          Event.outWrite ("btcli Version: " ++ c.Version ++ "(" ++ c.Revision ++ ")\n"),
          Event.outWrite "Please use `exit` or `Ctrl-D` to exit this program.\n",
          Event.promptRun ⟨⟨none, repo⟩, ⟨repo⟩, []⟩],
        match env.promptRun ⟨⟨none, repo⟩, ⟨repo⟩, []⟩ with
        | .returned => .returned ExitCodeOK
        | .exited code => .exited code
        | .blocked => .blocked⟩ := by
  cases hp : env.promptRun ⟨⟨none, repo⟩, ⟨repo⟩, []⟩ <;>
    simp [CLI.Run, loadConfig, h, hl, preparePrompt, hr, hp]

theorem Run_history_ok (c : CLI) (env : Env) (args : List String) (conf : Config)
    (t1 : List Event) (f : File) (repo : Repository) (h : env.confLoad = .ok conf)
    (hl : loadHistoryFile env conf = (t1, .ok f))
    (hr : env.newBigtableRepository conf.Project conf.Instance = .ok repo) :
    CLI.Run c env args =
      ⟨[Event.confLoad] ++ t1 ++
        [Event.scanFile f,
          Event.newBigtableRepository conf.Project conf.Instance,
          Event.outWrite ("btcli Version: " ++ c.Version ++ "(" ++ c.Revision ++ ")\n"),
          Event.outWrite "Please use `exit` or `Ctrl-D` to exit this program.\n",
          Event.promptRun ⟨⟨some f, repo⟩, ⟨repo⟩, scanHistories f⟩] ++
        (match env.promptRun ⟨⟨some f, repo⟩, ⟨repo⟩, scanHistories f⟩ with
          | .returned => [Event.closeFile f]
          | _ => []),
        match env.promptRun ⟨⟨some f, repo⟩, ⟨repo⟩, scanHistories f⟩ with
        | .returned => .returned ExitCodeOK
        | .exited code => .exited code
        | .blocked => .blocked⟩ := by
  cases hp : env.promptRun ⟨⟨some f, repo⟩, ⟨repo⟩, scanHistories f⟩ <;>
    simp [CLI.Run, loadConfig, h, hl, preparePrompt, hr, hp]

theorem loadHistoryFile_user_error (env : Env) (conf : Config) (err : String)
    (h : env.userCurrent = .error err) :
    loadHistoryFile env conf = ([Event.userCurrent], .error err) := by
  simp [loadHistoryFile, h]

theorem loadHistoryFile_user_ok (env : Env) (conf : Config) (u : User)
    (h : env.userCurrent = .ok u) :
    loadHistoryFile env conf =
      ([Event.userCurrent,
          Event.openFile (u.HomeDir ++ "/.btcli_history") (O_RDWR ||| O_CREATE ||| O_APPEND) 0o666],
        (env.openFile (u.HomeDir ++ "/.btcli_history") (O_RDWR ||| O_CREATE ||| O_APPEND) 0o666).map
          (fun content =>
            ⟨u.HomeDir ++ "/.btcli_history", O_RDWR ||| O_CREATE ||| O_APPEND, 0o666, content⟩)) := by
  cases ho : env.openFile (u.HomeDir ++ "/.btcli_history") (O_RDWR ||| O_CREATE ||| O_APPEND) 0o666 <;>
    simp [loadHistoryFile, h, ho, Except.map]

/-- The trace of `loadHistoryFile` is one of two shapes. -/
theorem loadHistoryFile_trace (env : Env) (conf : Config) :
    (loadHistoryFile env conf).1 = [Event.userCurrent] ∨
    ∃ name flag perm, (loadHistoryFile env conf).1 =
      [Event.userCurrent, Event.openFile name flag perm] := by
  cases h : env.userCurrent with
  | error e => left; rw [loadHistoryFile_user_error env conf e h]
  | ok u => right; rw [loadHistoryFile_user_ok env conf u h]; exact ⟨_, _, _, rfl⟩

/-! ## Startup failures -/

/-- C1: if loading the configuration fails, `Run` writes exactly one line,
`args parse error: ...`, to ErrStream and returns the non-zero status
`ExitCodeParseError`; it opens no file, constructs no repository client, writes
nothing to OutStream and does not run the prompt loop. -/
theorem C1_config_failure (c : CLI) (env : Env) (args : List String) (err : String)
    (h : (loadConfig c env args).2 = .error err) :
    CLI.Run c env args =
      ⟨[Event.confLoad, Event.errWrite ("args parse error: " ++ err ++ "\n")],
        .returned ExitCodeParseError⟩ ∧
    ExitCodeParseError ≠ 0 ∧
    (CLI.Run c env args).trace.filter Event.isErrWrite =
      [Event.errWrite ("args parse error: " ++ err ++ "\n")] ∧
    ∀ e ∈ (CLI.Run c env args).trace,
      e.isOpenFile = false ∧ e.isNewRepository = false ∧ e.isOutWrite = false ∧
      e.isPromptRun = false ∧ e ≠ Event.userCurrent := by
  have hc : env.confLoad = .error err := by
    unfold loadConfig at h
    cases hcl : env.confLoad <;> simp_all
  rw [Run_confLoad_error c env args err hc]
  refine ⟨rfl, by decide, by simp [Event.isErrWrite], ?_⟩
  intro e he
  simp at he
  rcases he with rfl | rfl <;> simp [Event.isOpenFile, Event.isNewRepository, Event.isOutWrite,
    Event.isPromptRun]

theorem C1_config_failure_witness :
    (loadConfig cli0 envConfFail ["btcli", "-project", "p"]).2 =
      .error "required key PROJECT missing value" ∧
    (CLI.Run cli0 envConfFail ["btcli", "-project", "p"]).outcome =
      .returned ExitCodeParseError :=
  ⟨rfl, congrArg Exec.outcome
    (C1_config_failure cli0 envConfFail ["btcli", "-project", "p"]
      "required key PROJECT missing value" rfl).1⟩

/-- C2: when the configuration loads and the repository client cannot be
constructed from `(conf.Project, conf.Instance)`, `preparePrompt` returns an
error and no prompt, and `Run` writes a `failed to initialized prompt` line to
ErrStream, runs no prompt loop, writes nothing to OutStream and returns
`ExitCodeError`, which is non-zero and differs from `ExitCodeParseError`. -/
theorem C2_repository_failure (c : CLI) (env : Env) (args : List String) (conf : Config)
    (err : String) (h : env.confLoad = .ok conf)
    (hr : env.newBigtableRepository conf.Project conf.Instance = .error err) :
    (∀ writer histories, (preparePrompt c env conf writer histories).2 =
      .error ("failed to initialized bigtable repository:" ++ err ++ ": " ++ err)) ∧
    (CLI.Run c env args).outcome = .returned ExitCodeError ∧
    ExitCodeError ≠ 0 ∧ ExitCodeError ≠ ExitCodeParseError ∧
    Event.errWrite ("failed to initialized prompt: " ++
      ("failed to initialized bigtable repository:" ++ err ++ ": " ++ err) ++ "\n")
      ∈ (CLI.Run c env args).trace ∧
    ∀ e ∈ (CLI.Run c env args).trace, e.isPromptRun = false ∧ e.isOutWrite = false := by
  rw [Run_prepare_error c env args conf err h hr]
  refine ⟨?_, rfl, by decide, by decide, by simp, ?_⟩
  · intro writer histories
    simp [preparePrompt, hr]
  · intro e he
    simp only [List.mem_append, List.mem_cons, List.mem_singleton, List.not_mem_nil,
      or_false] at he
    rcases he with ((((rfl | he) | he) | (rfl | rfl)) | he)
    · simp [Event.isPromptRun, Event.isOutWrite]
    · rcases loadHistoryFile_trace env conf with ht | ⟨n, fl, pm, ht⟩
      · rw [ht] at he
        simp only [List.mem_singleton] at he
        subst he
        simp [Event.isPromptRun, Event.isOutWrite]
      · rw [ht] at he
        simp only [List.mem_cons, List.mem_singleton, List.not_mem_nil, or_false] at he
        rcases he with rfl | rfl <;> simp [Event.isPromptRun, Event.isOutWrite]
    · cases hl : (loadHistoryFile env conf).2 <;> rw [hl] at he <;> simp at he <;> subst he <;>
        simp [Event.isPromptRun, Event.isOutWrite]
    · simp [Event.isPromptRun, Event.isOutWrite]
    · simp [Event.isPromptRun, Event.isOutWrite]
    · cases hl : (loadHistoryFile env conf).2 with
      | error _ =>
        rw [hl] at he
        simp at he
      | ok f =>
        rw [hl] at he
        simp only [List.mem_singleton] at he
        subst he
        simp [Event.isPromptRun, Event.isOutWrite]

theorem C2_repository_failure_witness :
    envRepoFail.confLoad = .ok conf0 ∧
    envRepoFail.newBigtableRepository conf0.Project conf0.Instance = .error "dial failed" ∧
    (CLI.Run cli0 envRepoFail []).outcome = .returned ExitCodeError :=
  ⟨rfl, rfl, (C2_repository_failure cli0 envRepoFail [] conf0 "dial failed" rfl rfl).2.1⟩

/-! ## The history file cannot be opened -/

/-- C3: when the configuration loads and `loadHistoryFile` fails, `Run` does not
return there: it writes one message to ErrStream and goes on to prepare the
prompt with a nil writer and an empty history list; its outcome is that of the
same run with the file opened (same repository result, same end of the prompt
loop): `ExitCodeError` when the preparation fails, `ExitCodeOK` when it succeeds
and the loop returns. -/
theorem C3_history_failure_nonfatal (c : CLI) (env env' : Env) (args : List String)
    (conf : Config) (err : String) (f : File)
    (h : env.confLoad = .ok conf) (hl : (loadHistoryFile env conf).2 = .error err)
    (h' : env'.confLoad = .ok conf) (hl' : (loadHistoryFile env' conf).2 = .ok f)
    (hrepo : env'.newBigtableRepository conf.Project conf.Instance =
      env.newBigtableRepository conf.Project conf.Instance)
    (hloop : ∀ repo, env'.promptRun ⟨⟨some f, repo⟩, ⟨repo⟩, scanHistories f⟩ =
      env.promptRun ⟨⟨none, repo⟩, ⟨repo⟩, []⟩) :
    (∃ rest, (CLI.Run c env args).trace =
      [Event.confLoad] ++ (loadHistoryFile env conf).1 ++
        [Event.errWrite ("failed to a history file open: " ++ err ++ "\n")] ++
        (preparePrompt c env conf none []).1 ++ rest) ∧
    (∀ p, (preparePrompt c env conf none []).2 = .ok p →
      p.histories = [] ∧ p.executor.history = none ∧
      Event.promptRun p ∈ (CLI.Run c env args).trace) ∧
    (CLI.Run c env args).outcome = (CLI.Run c env' args).outcome ∧
    ((∃ e, (preparePrompt c env conf none []).2 = .error e) →
      (CLI.Run c env args).outcome = .returned ExitCodeError) ∧
    (∀ p, (preparePrompt c env conf none []).2 = .ok p → env.promptRun p = .returned →
      (CLI.Run c env args).outcome = .returned ExitCodeOK) := by
  have hle : loadHistoryFile env conf = ((loadHistoryFile env conf).1, .error err) :=
    Prod.ext rfl hl
  have hle' : loadHistoryFile env' conf = ((loadHistoryFile env' conf).1, .ok f) :=
    Prod.ext rfl hl'
  cases hr : env.newBigtableRepository conf.Project conf.Instance with
  | error e =>
    rw [Run_prepare_error c env args conf e h hr,
      Run_prepare_error c env' args conf e h' (hrepo.trans hr), hl]
    refine ⟨⟨[Event.errWrite ("failed to initialized prompt: " ++
      ("failed to initialized bigtable repository:" ++ e ++ ": " ++ e) ++ "\n")], ?_⟩,
      ?_, rfl, fun _ => rfl, ?_⟩
    · simp [preparePrompt, hr]
    · intro p hp
      simp [preparePrompt, hr] at hp
    · intro p hp
      simp [preparePrompt, hr] at hp
  | ok repo =>
    rw [Run_history_error c env args conf _ err repo h hle hr,
      Run_history_ok c env' args conf _ f repo h' hle' (hrepo.trans hr), hloop repo]
    refine ⟨⟨[Event.outWrite ("btcli Version: " ++ c.Version ++ "(" ++ c.Revision ++ ")\n"),
      Event.outWrite "Please use `exit` or `Ctrl-D` to exit this program.\n",
      Event.promptRun ⟨⟨none, repo⟩, ⟨repo⟩, []⟩], ?_⟩, ?_, rfl, ?_, ?_⟩
    · simp [preparePrompt, hr]
    · intro p hp
      simp only [preparePrompt, hr, Except.ok.injEq] at hp
      subst hp
      simp
    · rintro ⟨e, he⟩
      simp [preparePrompt, hr] at he
    · intro p hp hret
      simp only [preparePrompt, hr, Except.ok.injEq] at hp
      subst hp
      simp [hret]

theorem C3_history_failure_nonfatal_witness :
    envHistFail.confLoad = .ok conf0 ∧
    (loadHistoryFile envHistFail conf0).2 = .error "permission denied" ∧
    (CLI.Run cli0 envHistFail []).outcome = (CLI.Run cli0 envOK []).outcome :=
  ⟨rfl, rfl,
    (C3_history_failure_nonfatal cli0 envHistFail envOK [] conf0 "permission denied"
      ⟨"/home/alice/.btcli_history", O_RDWR ||| O_CREATE ||| O_APPEND, 0o666,
        [108, 115, 10, 101, 120, 105, 116, 10]⟩
      rfl rfl rfl rfl rfl (fun _ => rfl)).2.2.1⟩

/-! ## Lifetime of the history file -/

/-- Events of a trace that ends with its only close come before that close. -/
theorem no_close_before_loop (l pre post : List Event) (p : Prompt)
    (h : ∀ e ∈ l.dropLast, e.isCloseFile = false) (hs : l = pre ++ Event.promptRun p :: post) :
    ∀ e ∈ pre, e.isCloseFile = false := by
  intro e he
  apply h
  rw [hs, List.dropLast_append_of_ne_nil _ (by simp)]
  exact List.mem_append_left _ he

/-- In every run, whatever precedes the last event holds no close, at most one
open is made, and no more closes than opens. -/
theorem Run_trace_shape (c : CLI) (env : Env) (args : List String) :
    ((CLI.Run c env args).trace.filter Event.isOpenFile).length ≤ 1 ∧
    ((CLI.Run c env args).trace.filter Event.isCloseFile).length ≤
      ((CLI.Run c env args).trace.filter Event.isOpenFile).length ∧
    ∀ e ∈ (CLI.Run c env args).trace.dropLast, e.isCloseFile = false := by
  cases h : env.confLoad with
  | error err =>
    rw [Run_confLoad_error c env args err h]
    simp [Event.isOpenFile, Event.isCloseFile]
  | ok conf =>
    cases hu : env.userCurrent with
    | error eu =>
      have hl := loadHistoryFile_user_error env conf eu hu
      cases hr : env.newBigtableRepository conf.Project conf.Instance with
      | error e =>
        rw [Run_prepare_error c env args conf e h hr, hl]
        simp [Event.isOpenFile, Event.isCloseFile]
      | ok repo =>
        rw [Run_history_error c env args conf _ eu repo h hl hr]
        simp [Event.isOpenFile, Event.isCloseFile]
    | ok u =>
      have hl := loadHistoryFile_user_ok env conf u hu
      cases ho : env.openFile (u.HomeDir ++ "/.btcli_history")
          (O_RDWR ||| O_CREATE ||| O_APPEND) 0o666 with
      | error eo =>
        rw [ho] at hl
        cases hr : env.newBigtableRepository conf.Project conf.Instance with
        | error e =>
          rw [Run_prepare_error c env args conf e h hr, hl]
          simp [Event.isOpenFile, Event.isCloseFile, Except.map]
        | ok repo =>
          rw [Run_history_error c env args conf _ eo repo h hl hr]
          simp [Event.isOpenFile, Event.isCloseFile]
      | ok content =>
        rw [ho] at hl
        cases hr : env.newBigtableRepository conf.Project conf.Instance with
        | error e =>
          rw [Run_prepare_error c env args conf e h hr, hl]
          simp [Event.isOpenFile, Event.isCloseFile, Except.map]
        | ok repo =>
          rw [Run_history_ok c env args conf _ _ repo h hl hr]
          cases env.promptRun ⟨⟨some ⟨u.HomeDir ++ "/.btcli_history",
            O_RDWR ||| O_CREATE ||| O_APPEND, 0o666, content⟩, repo⟩, ⟨repo⟩,
            scanHistories ⟨u.HomeDir ++ "/.btcli_history",
              O_RDWR ||| O_CREATE ||| O_APPEND, 0o666, content⟩⟩ <;>
            simp [Event.isOpenFile, Event.isCloseFile]

/-- When the file was opened and `Run` returns, the close is the last event and
the only close. -/
theorem Run_close_last (c : CLI) (env : Env) (args : List String) (conf : Config) (f : File)
    (s : Int) (h : env.confLoad = .ok conf) (hl : (loadHistoryFile env conf).2 = .ok f)
    (hret : (CLI.Run c env args).outcome = .returned s) :
    (CLI.Run c env args).trace.filter Event.isCloseFile = [Event.closeFile f] ∧
    (CLI.Run c env args).trace.getLast? = some (Event.closeFile f) ∧
    (s = ExitCodeOK ∨ s = ExitCodeError) := by
  have hle : loadHistoryFile env conf = ((loadHistoryFile env conf).1, .ok f) :=
    Prod.ext rfl hl
  have hno : ∀ e ∈ (loadHistoryFile env conf).1, e.isCloseFile = false := by
    intro e he
    rcases loadHistoryFile_trace env conf with ht | ⟨n, fl, pm, ht⟩ <;> rw [ht] at he <;>
      simp at he <;> rcases he with rfl | rfl <;> rfl
  have hfilter : (loadHistoryFile env conf).1.filter Event.isCloseFile = [] := by
    rw [List.filter_eq_nil_iff]
    intro e he
    simp [hno e he]
  cases hr : env.newBigtableRepository conf.Project conf.Instance with
  | error e =>
    rw [Run_prepare_error c env args conf e h hr, hl] at hret ⊢
    simp only [Outcome.returned.injEq] at hret
    refine ⟨by simp [Event.isCloseFile, hfilter], ?_, Or.inr hret.symm⟩
    show (_ ++ [Event.closeFile f]).getLast? = _
    exact List.getLast?_concat _
  | ok repo =>
    rw [Run_history_ok c env args conf _ f repo h hle hr] at hret ⊢
    cases hp : env.promptRun ⟨⟨some f, repo⟩, ⟨repo⟩, scanHistories f⟩ with
    | returned =>
      rw [hp] at hret
      simp only [Outcome.returned.injEq] at hret
      refine ⟨by simp [Event.isCloseFile, hfilter], ?_, Or.inl hret.symm⟩
      show (_ ++ [Event.closeFile f]).getLast? = _
      exact List.getLast?_concat _
    | exited code => rw [hp] at hret; simp at hret
    | blocked => rw [hp] at hret; simp at hret

/-- C5: in every execution of `Run` the history file is opened at most once; when
it was opened successfully and `Run` returns (with `ExitCodeOK` after the loop,
or with `ExitCodeError` when the prompt preparation fails) it has been closed
exactly once, as the last action; and no close precedes the prompt loop. -/
theorem C5_history_file_closed_once (c : CLI) (env : Env) (args : List String) :
    ((CLI.Run c env args).trace.filter Event.isOpenFile).length ≤ 1 ∧
    ((CLI.Run c env args).trace.filter Event.isCloseFile).length ≤
      ((CLI.Run c env args).trace.filter Event.isOpenFile).length ∧
    (∀ conf f s, env.confLoad = .ok conf → (loadHistoryFile env conf).2 = .ok f →
      (CLI.Run c env args).outcome = .returned s →
      (CLI.Run c env args).trace.filter Event.isCloseFile = [Event.closeFile f] ∧
      (CLI.Run c env args).trace.getLast? = some (Event.closeFile f) ∧
      (s = ExitCodeOK ∨ s = ExitCodeError)) ∧
    (∀ pre p post, (CLI.Run c env args).trace = pre ++ Event.promptRun p :: post →
      ∀ e ∈ pre, e.isCloseFile = false) := by
  refine ⟨(Run_trace_shape c env args).1, (Run_trace_shape c env args).2.1, ?_, ?_⟩
  · intro conf f s h hl hret
    exact Run_close_last c env args conf f s h hl hret
  · intro pre p post hs
    exact no_close_before_loop _ pre post p (Run_trace_shape c env args).2.2 hs

theorem C5_history_file_closed_once_witness :
    ((CLI.Run cli0 envOK []).trace.filter Event.isCloseFile =
        [Event.closeFile ⟨"/home/alice/.btcli_history", O_RDWR ||| O_CREATE ||| O_APPEND, 0o666,
          [108, 115, 10, 101, 120, 105, 116, 10]⟩] ∧
      (CLI.Run cli0 envOK []).trace.getLast? =
        some (Event.closeFile ⟨"/home/alice/.btcli_history", O_RDWR ||| O_CREATE ||| O_APPEND,
          0o666, [108, 115, 10, 101, 120, 105, 116, 10]⟩) ∧
      (ExitCodeOK = ExitCodeOK ∨ ExitCodeOK = ExitCodeError)) ∧
    ((CLI.Run cli0 envRepoFail []).trace.filter Event.isCloseFile =
        [Event.closeFile ⟨"/home/alice/.btcli_history", O_RDWR ||| O_CREATE ||| O_APPEND, 0o666,
          [108, 115, 10]⟩] ∧
      (CLI.Run cli0 envRepoFail []).trace.getLast? =
        some (Event.closeFile ⟨"/home/alice/.btcli_history", O_RDWR ||| O_CREATE ||| O_APPEND,
          0o666, [108, 115, 10]⟩) ∧
      (ExitCodeError = ExitCodeOK ∨ ExitCodeError = ExitCodeError)) :=
  ⟨(C5_history_file_closed_once cli0 envOK []).2.2.1 conf0 _ ExitCodeOK rfl rfl rfl,
    (C5_history_file_closed_once cli0 envRepoFail []).2.2.1 conf0 _ ExitCodeError rfl rfl rfl⟩

/-! ## The successful path -/

/-- C8: when the configuration loads, the repository client is constructed (so
the prompt preparation succeeds) and the prompt loop that is run returns, `Run`
returns `ExitCodeOK`, which is 0; its writes to OutStream are the version banner
and the exit hint, in this order, and they come right before the prompt loop,
which is preceded by no other loop. This does not depend on how
`loadHistoryFile` ended. -/
theorem C8_loop_returns_ok (c : CLI) (env : Env) (args : List String) (conf : Config)
    (repo : Repository) (h : env.confLoad = .ok conf)
    (hr : env.newBigtableRepository conf.Project conf.Instance = .ok repo)
    (hloop : ∀ p, Event.promptRun p ∈ (CLI.Run c env args).trace → env.promptRun p = .returned) :
    (CLI.Run c env args).outcome = .returned ExitCodeOK ∧ ExitCodeOK = 0 ∧
    (CLI.Run c env args).trace.filter Event.isOutWrite =
      [Event.outWrite ("btcli Version: " ++ c.Version ++ "(" ++ c.Revision ++ ")\n"),
        Event.outWrite "Please use `exit` or `Ctrl-D` to exit this program.\n"] ∧
    ∃ pre p post, (CLI.Run c env args).trace = pre ++
      [Event.outWrite ("btcli Version: " ++ c.Version ++ "(" ++ c.Revision ++ ")\n"),
        Event.outWrite "Please use `exit` or `Ctrl-D` to exit this program.\n",
        Event.promptRun p] ++ post ∧
      (∀ w hs, (preparePrompt c env conf w hs).2 = .ok ⟨⟨w, repo⟩, ⟨repo⟩, hs⟩) ∧
      ∀ e ∈ pre, e.isPromptRun = false := by
  have hno : ∀ e ∈ (loadHistoryFile env conf).1, e.isOutWrite = false ∧ e.isPromptRun = false := by
    intro e he
    rcases loadHistoryFile_trace env conf with ht | ⟨n, fl, pm, ht⟩ <;> rw [ht] at he <;>
      simp at he <;> rcases he with rfl | rfl <;> exact ⟨rfl, rfl⟩
  have hfilter : (loadHistoryFile env conf).1.filter Event.isOutWrite = [] := by
    rw [List.filter_eq_nil_iff]
    intro e he
    simp [(hno e he).1]
  have hprep : ∀ w hs, (preparePrompt c env conf w hs).2 = .ok ⟨⟨w, repo⟩, ⟨repo⟩, hs⟩ := by
    intro w hs
    simp [preparePrompt, hr]
  cases hl : (loadHistoryFile env conf).2 with
  | error e =>
    have hle : loadHistoryFile env conf = ((loadHistoryFile env conf).1, .error e) :=
      Prod.ext rfl hl
    have hrun := Run_history_error c env args conf _ e repo h hle hr
    have hp : env.promptRun ⟨⟨none, repo⟩, ⟨repo⟩, []⟩ = .returned := by
      apply hloop
      rw [hrun]
      simp
    rw [hp] at hrun
    rw [hrun]
    refine ⟨rfl, rfl, by simp [Event.isOutWrite, hfilter], ?_⟩
    refine ⟨[Event.confLoad] ++ (loadHistoryFile env conf).1 ++
      [Event.errWrite ("failed to a history file open: " ++ e ++ "\n"),
        Event.newBigtableRepository conf.Project conf.Instance], ⟨⟨none, repo⟩, ⟨repo⟩, []⟩, [],
      by simp, hprep, ?_⟩
    intro ev hev
    simp only [List.mem_append, List.mem_cons, List.mem_singleton, List.not_mem_nil,
      or_false] at hev
    rcases hev with ((rfl | hev) | (rfl | rfl))
    · rfl
    · exact (hno ev hev).2
    · rfl
    · rfl
  | ok f =>
    have hle : loadHistoryFile env conf = ((loadHistoryFile env conf).1, .ok f) :=
      Prod.ext rfl hl
    have hrun := Run_history_ok c env args conf _ f repo h hle hr
    have hp : env.promptRun ⟨⟨some f, repo⟩, ⟨repo⟩, scanHistories f⟩ = .returned := by
      apply hloop
      rw [hrun]
      simp
    rw [hp] at hrun
    rw [hrun]
    refine ⟨rfl, rfl, by simp [Event.isOutWrite, hfilter], ?_⟩
    refine ⟨[Event.confLoad] ++ (loadHistoryFile env conf).1 ++
      [Event.scanFile f, Event.newBigtableRepository conf.Project conf.Instance],
      ⟨⟨some f, repo⟩, ⟨repo⟩, scanHistories f⟩, [Event.closeFile f], by simp, hprep, ?_⟩
    intro ev hev
    simp only [List.mem_append, List.mem_cons, List.mem_singleton, List.not_mem_nil,
      or_false] at hev
    rcases hev with ((rfl | hev) | (rfl | rfl))
    · rfl
    · exact (hno ev hev).2
    · rfl
    · rfl

theorem C8_loop_returns_ok_witness :
    (envOK.confLoad = .ok conf0 ∧
      envOK.newBigtableRepository conf0.Project conf0.Instance = .ok ⟨1⟩ ∧
      (CLI.Run cli0 envOK []).outcome = .returned ExitCodeOK) ∧
    (envHistFail.confLoad = .ok conf0 ∧
      envHistFail.newBigtableRepository conf0.Project conf0.Instance = .ok ⟨1⟩ ∧
      (CLI.Run cli0 envHistFail []).outcome = .returned ExitCodeOK) :=
  ⟨⟨rfl, rfl, (C8_loop_returns_ok cli0 envOK [] conf0 ⟨1⟩ rfl rfl (fun _ _ => rfl)).1⟩,
    ⟨rfl, rfl, (C8_loop_returns_ok cli0 envHistFail [] conf0 ⟨1⟩ rfl rfl (fun _ _ => rfl)).1⟩⟩

/-! ## Opening the history file -/

/-- C9: `loadHistoryFile` opens the path made of the current user's home
directory followed by `/.btcli_history`, whatever the configuration is, with
flags that are exactly read-write, create and append (no truncate bit, no
exclusive bit), and when the current user cannot be determined it returns that
error without any open. -/
theorem C9_loadHistoryFile_open (env : Env) (conf : Config) :
    (∀ u, env.userCurrent = .ok u →
      (loadHistoryFile env conf).1 = [Event.userCurrent,
        Event.openFile (u.HomeDir ++ "/.btcli_history") (O_RDWR ||| O_CREATE ||| O_APPEND) 0o666] ∧
      (loadHistoryFile env conf).2 =
        (env.openFile (u.HomeDir ++ "/.btcli_history") (O_RDWR ||| O_CREATE ||| O_APPEND) 0o666).map
          (fun content =>
            ⟨u.HomeDir ++ "/.btcli_history", O_RDWR ||| O_CREATE ||| O_APPEND, 0o666, content⟩)) ∧
    (∀ name flag perm, Event.openFile name flag perm ∈ (loadHistoryFile env conf).1 →
      (∃ u, env.userCurrent = .ok u ∧ name = u.HomeDir ++ "/.btcli_history") ∧
      flag = O_RDWR ||| O_CREATE ||| O_APPEND ∧
      flag &&& (O_WRONLY ||| O_RDWR) = O_RDWR ∧ flag &&& O_CREATE = O_CREATE ∧
      flag &&& O_APPEND = O_APPEND ∧ flag &&& O_TRUNC = 0 ∧ flag &&& O_EXCL = 0) ∧
    (∀ err, env.userCurrent = .error err →
      loadHistoryFile env conf = ([Event.userCurrent], .error err) ∧
      ∀ e ∈ (loadHistoryFile env conf).1, e.isOpenFile = false) ∧
    (∀ conf', loadHistoryFile env conf' = loadHistoryFile env conf) := by
  refine ⟨?_, ?_, ?_, ?_⟩
  · intro u hu
    rw [loadHistoryFile_user_ok env conf u hu]
    exact ⟨rfl, rfl⟩
  · intro name flag perm hmem
    cases hu : env.userCurrent with
    | error err =>
      rw [loadHistoryFile_user_error env conf err hu] at hmem
      simp at hmem
    | ok u =>
      rw [loadHistoryFile_user_ok env conf u hu] at hmem
      simp only [List.mem_cons, List.mem_singleton, Event.openFile.injEq, List.not_mem_nil,
        or_false, reduceCtorEq, false_or] at hmem
      obtain ⟨rfl, rfl, rfl⟩ := hmem
      exact ⟨⟨u, rfl, rfl⟩, rfl, by decide, by decide, by decide, by decide, by decide⟩
  · intro err hu
    rw [loadHistoryFile_user_error env conf err hu]
    exact ⟨rfl, by simp [Event.isOpenFile]⟩
  · intro conf'
    rfl

/-! ## The argument list -/

/-- C10: `Run` does not read its argument list: for every two argument lists
and the same environment the run (status and writes) is the same, and the
status `ExitCodeParseError` is returned exactly when the configuration fails to
load, so no argument list causes it. -/
theorem C10_args_ignored (c : CLI) (env : Env) (args1 args2 : List String) :
    CLI.Run c env args1 = CLI.Run c env args2 ∧
    loadConfig c env args1 = loadConfig c env args2 ∧
    ((CLI.Run c env args1).outcome = .returned ExitCodeParseError ↔
      ∃ err, env.confLoad = .error err) := by
  refine ⟨rfl, rfl, ?_⟩
  constructor
  · intro hout
    cases h : env.confLoad with
    | error err => exact ⟨err, rfl⟩
    | ok conf =>
      exfalso
      cases hr : env.newBigtableRepository conf.Project conf.Instance with
      | error e =>
        rw [Run_prepare_error c env args1 conf e h hr] at hout
        simp only [Outcome.returned.injEq] at hout
        exact absurd hout (by decide)
      | ok repo =>
        cases hl : (loadHistoryFile env conf).2 with
        | error e =>
          have hle : loadHistoryFile env conf = ((loadHistoryFile env conf).1, .error e) :=
            Prod.ext rfl hl
          rw [Run_history_error c env args1 conf _ e repo h hle hr] at hout
          cases hp : env.promptRun ⟨⟨none, repo⟩, ⟨repo⟩, []⟩ <;> rw [hp] at hout <;>
            simp at hout
          exact absurd hout (by decide)
        | ok f =>
          have hle : loadHistoryFile env conf = ((loadHistoryFile env conf).1, .ok f) :=
            Prod.ext rfl hl
          rw [Run_history_ok c env args1 conf _ f repo h hle hr] at hout
          cases hp : env.promptRun ⟨⟨some f, repo⟩, ⟨repo⟩, scanHistories f⟩ <;>
            rw [hp] at hout <;> simp at hout
          exact absurd hout (by decide)
  · rintro ⟨err, h⟩
    rw [Run_confLoad_error c env args1 err h]

/-! ## Reading the history file -/

theorem indexByte_line (l rest : Bytes) (h : (10 : UInt8) ∉ l) :
    indexByte (l ++ 10 :: rest) 10 = some l.length := by
  induction l with
  | nil => simp [indexByte]
  | cons b l ih =>
    have hb : b ≠ 10 := fun hb => h (by simp [hb])
    have hl : (10 : UInt8) ∉ l := fun hl => h (List.mem_cons_of_mem _ hl)
    simp [indexByte, hb, ih hl]

theorem indexByte_none (l : Bytes) (h : (10 : UInt8) ∉ l) : indexByte l 10 = none := by
  induction l with
  | nil => rfl
  | cons b l ih =>
    have hb : b ≠ 10 := fun hb => h (by simp [hb])
    have hl : (10 : UInt8) ∉ l := fun hl => h (List.mem_cons_of_mem _ hl)
    simp [indexByte, hb, ih hl]

theorem take_line (l rest : Bytes) (n : Nat) (h : l.length < n) :
    (l ++ 10 :: rest).take n = l ++ 10 :: rest.take (n - l.length - 1) := by
  induction l generalizing n with
  | nil =>
    obtain ⟨k, rfl⟩ : ∃ k, n = k + 1 := ⟨n - 1, by simp at h; omega⟩
    simp
  | cons b l ih =>
    obtain ⟨k, rfl⟩ : ∃ k, n = k + 1 := ⟨n - 1, by simp at h; omega⟩
    have hk : l.length < k := by simp at h; omega
    simp [ih k hk]

theorem dropCR_of_no_cr (l : Bytes) (h : l.getLast? ≠ some 13) : dropCR l = l := by
  simp [dropCR, h]

/-- A newline-terminated line that fits the buffer is the next token, up to a
terminal carriage return. -/
theorem Scan_line (l rest : Bytes) (h : (10 : UInt8) ∉ l) (hlen : l.length < maxScanTokenSize) :
    Scan (l ++ 10 :: rest) = some (dropCR l, rest) := by
  unfold Scan ScanLines
  rw [take_line l rest _ hlen, indexByte_line l _ h]
  have hne : (l ++ 10 :: List.take (maxScanTokenSize - l.length - 1) rest).isEmpty = false := by
    cases l <;> rfl
  simp [hne]

/-- A line that does not fit the buffer ends the scan. -/
theorem Scan_too_long (l rest : Bytes) (h : (10 : UInt8) ∉ l)
    (hlen : maxScanTokenSize ≤ l.length) : Scan (l ++ rest) = none := by
  unfold Scan ScanLines
  have htake : (l ++ rest).take maxScanTokenSize = l.take maxScanTokenSize := by
    rw [List.take_append_eq_append_take]
    simp [Nat.sub_eq_zero_of_le hlen]
  have hnot : (10 : UInt8) ∉ l.take maxScanTokenSize := fun hm => h (List.mem_of_mem_take hm)
  have hlt : decide ((l ++ rest).length < maxScanTokenSize) = false := by
    simp only [List.length_append, decide_eq_false_iff_not]
    omega
  rw [htake, indexByte_none _ hnot, hlt]
  rfl

theorem fileOfLines_length (lines : List Bytes) : lines.length ≤ (fileOfLines lines).length := by
  induction lines with
  | nil => simp
  | cons l ls ih =>
    simp only [fileOfLines, List.length_cons, List.length_append]
    omega

theorem scanLoop_fileOfLines (lines : List Bytes) (fuel : Nat) (hfuel : lines.length < fuel)
    (h : ∀ l ∈ lines, (10 : UInt8) ∉ l ∧ l.length < maxScanTokenSize) :
    scanLoop fuel (fileOfLines lines) = lines.map dropCR := by
  induction lines generalizing fuel with
  | nil =>
    obtain ⟨k, rfl⟩ : ∃ k, fuel = k + 1 := ⟨fuel - 1, by simp at hfuel; omega⟩
    rfl
  | cons l ls ih =>
    obtain ⟨k, rfl⟩ : ∃ k, fuel = k + 1 := ⟨fuel - 1, by simp at hfuel; omega⟩
    have hk : ls.length < k := by simp at hfuel; omega
    have hl := h l (List.mem_cons_self _ _)
    simp only [fileOfLines, scanLoop, Scan_line l _ hl.1 hl.2, List.map_cons]
    rw [ih k hk (fun x hx => h x (List.mem_cons_of_mem _ hx))]

/-- What `Run` reads from a file of newline-terminated lines that fit the
buffer: each line, less a terminal carriage return. -/
theorem scanHistories_fileOfLines (lines : List Bytes) (f : File)
    (hf : f.content = fileOfLines lines)
    (h : ∀ l ∈ lines, (10 : UInt8) ∉ l ∧ l.length < maxScanTokenSize) :
    scanHistories f = lines.map dropCR := by
  unfold scanHistories
  rw [hf]
  exact scanLoop_fileOfLines lines _ (Nat.lt_succ_of_le (fileOfLines_length lines)) h

theorem indexByte_lt (d : Bytes) (c : UInt8) (i : Nat) (h : indexByte d c = some i) :
    i < d.length := by
  induction d generalizing i with
  | nil => simp [indexByte] at h
  | cons b d ih =>
    unfold indexByte at h
    split at h
    · simp only [Option.some.injEq] at h
      subst h
      simp
    · cases hd : indexByte d c with
      | none => simp [hd] at h
      | some j =>
        simp only [hd, Option.map_some', Option.some.injEq] at h
        subst h
        have := ih j hd
        simp only [List.length_cons]
        omega

/-- Every successful `Scan` consumes at least one byte. -/
theorem Scan_shorter (u tok rest : Bytes) (h : Scan u = some (tok, rest)) :
    rest.length < u.length := by
  unfold Scan ScanLines at h
  split at h
  · rename_i advance token heq
    simp only [Option.some.injEq, Prod.mk.injEq] at h
    obtain ⟨-, rfl⟩ := h
    split at heq
    · simp at heq
    · split at heq
      · rename_i i hi
        simp only [Prod.mk.injEq] at heq
        obtain ⟨rfl, -⟩ := heq
        have hlt := indexByte_lt _ _ _ hi
        simp only [List.length_take, List.length_drop] at hlt ⊢
        omega
      · split at heq
        · rename_i hne _ _ hEOF
          simp only [Prod.mk.injEq] at heq
          obtain ⟨rfl, -⟩ := heq
          simp only [decide_eq_true_eq] at hEOF
          have hu : u ≠ [] := by
            intro hu
            subst hu
            simp [maxScanTokenSize] at hne
          have hpos : 0 < u.length := List.length_pos.mpr hu
          simp only [List.length_take, List.length_drop]
          omega
        · simp at heq
  · simp at h

/-- The fuel of `scanHistories` is enough: with any fuel above the number of
unread bytes the loop gives the same list. -/
theorem scanLoop_fuel (fuel fuel' : Nat) (u : Bytes) (h : u.length < fuel)
    (h' : u.length < fuel') : scanLoop fuel u = scanLoop fuel' u := by
  induction fuel generalizing fuel' u with
  | zero => omega
  | succ k ih =>
    obtain ⟨k', rfl⟩ : ∃ k', fuel' = k' + 1 := ⟨fuel' - 1, by omega⟩
    unfold scanLoop
    cases hs : Scan u with
    | none => rfl
    | some tr =>
      obtain ⟨tok, rest⟩ := tr
      have hlt := Scan_shorter u tok rest hs
      simp only
      rw [ih k' rest (by omega) (by omega)]

/-- A first line of `maxScanTokenSize` bytes or more leaves the history empty. -/
theorem scanHistories_long_line (f : File) (l rest : Bytes) (hf : f.content = l ++ 10 :: rest)
    (h : (10 : UInt8) ∉ l) (hlen : maxScanTokenSize ≤ l.length) : scanHistories f = [] := by
  unfold scanHistories scanLoop
  rw [hf, Scan_too_long l _ h hlen]

/-- C4 (as the code has it): when the history file opens and holds the given
lines, each terminated by a newline, and no line contains a newline, ends with a
carriage return or has `maxScanTokenSize` (65536) bytes or more, the histories
list built by `Run` is exactly that list, and it is the list handed to the
prompt. -/
theorem C4_histories_are_file_lines (c : CLI) (env : Env) (args : List String) (conf : Config)
    (f : File) (lines : List Bytes)
    (h : env.confLoad = .ok conf) (hl : (loadHistoryFile env conf).2 = .ok f)
    (hf : f.content = fileOfLines lines)
    (hlines : ∀ l ∈ lines,
      (10 : UInt8) ∉ l ∧ l.getLast? ≠ some 13 ∧ l.length < maxScanTokenSize) :
    scanHistories f = lines ∧
    ∀ repo, env.newBigtableRepository conf.Project conf.Instance = .ok repo →
      Event.promptRun ⟨⟨some f, repo⟩, ⟨repo⟩, lines⟩ ∈ (CLI.Run c env args).trace ∧
      (CLI.Run c env args).histories = [lines] := by
  have hscan : scanHistories f = lines := by
    rw [scanHistories_fileOfLines lines f hf (fun l hl => ⟨(hlines l hl).1, (hlines l hl).2.2⟩)]
    conv_rhs => rw [← List.map_id lines]
    apply List.map_congr_left
    intro l hl
    exact dropCR_of_no_cr l (hlines l hl).2.1
  refine ⟨hscan, ?_⟩
  intro repo hr
  have hle : loadHistoryFile env conf = ((loadHistoryFile env conf).1, .ok f) :=
    Prod.ext rfl hl
  have hno : (loadHistoryFile env conf).1.filterMap (fun e =>
      match e with
      | .promptRun p => some p.histories
      | _ => none) = [] := by
    rcases loadHistoryFile_trace env conf with ht | ⟨n, fl, pm, ht⟩ <;> rw [ht] <;> rfl
  rw [Run_history_ok c env args conf _ f repo h hle hr, hscan]
  constructor
  · simp
  · cases env.promptRun ⟨⟨some f, repo⟩, ⟨repo⟩, lines⟩ <;>
      simp [Exec.histories, List.filterMap_append, hno]

theorem C4_histories_are_file_lines_witness :
    (envTwoLines.confLoad = .ok conf0 ∧
      (∀ l ∈ [[108, 115], [114, 101, 97, 100, 32, 117, 115, 101, 114, 115]],
        (10 : UInt8) ∉ l ∧ l.getLast? ≠ some 13 ∧ l.length < maxScanTokenSize)) ∧
    scanHistories ⟨"/home/alice/.btcli_history", O_RDWR ||| O_CREATE ||| O_APPEND, 0o666,
      fileOfLines [[108, 115], [114, 101, 97, 100, 32, 117, 115, 101, 114, 115]]⟩ =
      [[108, 115], [114, 101, 97, 100, 32, 117, 115, 101, 114, 115]] :=
  ⟨⟨rfl, by decide⟩,
    (C4_histories_are_file_lines cli0 envTwoLines [] conf0
      ⟨"/home/alice/.btcli_history", O_RDWR ||| O_CREATE ||| O_APPEND, 0o666,
        fileOfLines [[108, 115], [114, 101, 97, 100, 32, 117, 115, 101, 114, 115]]⟩
      [[108, 115], [114, 101, 97, 100, 32, 117, 115, 101, 114, 115]]
      rfl rfl rfl (by decide)).1⟩

/-- C4 as stated fails: the one-line history `a\r` contains no newline, the file
holds it followed by a newline, and `Run` hands the prompt the line `a`. -/
theorem C4_counterexample_carriage_return :
    (∀ l ∈ [[(97 : UInt8), 13]], (10 : UInt8) ∉ l) ∧
    (loadHistoryFile envCR conf0).2 =
      .ok ⟨"/home/alice/.btcli_history", O_RDWR ||| O_CREATE ||| O_APPEND, 0o666,
        fileOfLines [[97, 13]]⟩ ∧
    (CLI.Run cli0 envCR []).histories = [[[97]]] ∧
    (CLI.Run cli0 envCR []).histories ≠ [[[97, 13]]] ∧
    ¬ ∀ (lines : List Bytes) (f : File), (∀ l ∈ lines, (10 : UInt8) ∉ l) →
      f.content = fileOfLines lines → scanHistories f = lines := by
  refine ⟨by decide, rfl, by decide, by decide, ?_⟩
  intro hall
  have hbad := hall [[97, 13]] ⟨"", 0, 0, fileOfLines [[97, 13]]⟩ (by decide) rfl
  revert hbad
  decide

end Btcli
